import Mathlib

/-!
Verification of the MPC lateral controller declared in
`modules/control/controller/mpc_controller.h`.

The repository ships only the class declaration (member signatures, member
variables with their initializers, and `const` qualifiers); the numerical
bodies are described by the accompanying natural-language specification.
Accordingly, the data model below is translated from the header, and each
operation whose body is absent from the repository is modelled from the
spec, as indicated in its doc comment.

All scalar quantities are modelled as exact rationals (`ℚ`); the C++ code
uses IEEE doubles, whose rounding and non-finite values are outside this
shallow embedding.  Matrices are Mathlib matrices over `ℚ` with the fixed
basic state size 6 declared in the header (`basic_state_size_ = 6`,
`preview_window_ = 0`: the header leaves the preview augmentation law
unspecified, so the un-augmented model is embedded).
-/

namespace ApolloMPC

/-- Status result of controller entry points, following the error taxonomy
of the specification (ConfigError, InputError, NumericalError,
LifecycleError, plus success). -/
inductive Status where
  | ok
  | configError
  | inputError
  | numericalError
  | lifecycleError
deriving DecidableEq

/-- Lifecycle phases of the controller, modelled from the spec:
Uninitialized → Ready → Running → Stopped (terminal). -/
inductive Phase where
  | uninitialized
  | ready
  | running
  | stopped
deriving DecidableEq

/-- Vehicle-physics and solver configuration, translated from the member
variables of `MPCController` (lines 136–162 and 210–222 of the header):
`ts_`, `cf_`, `cr_`, `wheelbase_`, `mass_`, `lf_`, `lr_`, `iz_`,
`steer_transmission_ratio_`, `steer_single_direction_max_degree_`,
`max_lat_acc_`, `lqr_eps_`, `lqr_max_iteration_`, the LQR weighting
diagonals, the digital-filter coefficient and the mean-filter window. -/
structure MPCParams where
  ts : ℚ
  cf : ℚ
  cr : ℚ
  wheelbase : ℚ
  mass : ℚ
  lf : ℚ
  lr : ℚ
  iz : ℚ
  steer_transmission_ratio : ℚ
  steer_single_direction_max_degree : ℚ
  max_lat_acc : ℚ
  lqr_eps : ℚ
  lqr_max_iteration : ℕ
  q_diag : Fin 6 → ℚ
  r_weight : ℚ
  filter_coeff : ℚ
  mean_filter_window : ℕ
  minimum_speed_protection : ℚ

/-- One planned trajectory point: position, heading, unit tangent
components, curvature, arc length and target speed.  The heading direction
is carried both as the angle `theta` and as its tangent components
`(tx, ty)`, since trigonometric functions of a rational angle are not
rational. -/
structure TrajectoryPoint where
  x : ℚ
  y : ℚ
  theta : ℚ
  tx : ℚ
  ty : ℚ
  kappa : ℚ
  s : ℚ
  v : ℚ
deriving DecidableEq

/-- The pose/velocity and chassis inputs of a compute cycle (localization
estimate and chassis state condensed to the fields the controller reads). -/
structure Measurement where
  x : ℚ
  y : ℚ
  theta : ℚ
  linear_v : ℚ
  angular_v : ℚ
deriving DecidableEq

/-- The emitted control command (normalized steering actuator value). -/
structure ControlCommand where
  steering_target : ℚ
deriving DecidableEq

/-- The per-cycle diagnostic frame (`SimpleMPCDebug`). -/
structure SimpleMPCDebug where
  lateral_error : ℚ
  lateral_error_rate : ℚ
  heading_error : ℚ
  heading_error_rate : ℚ
  station_error : ℚ
  speed_error : ℚ
  ref_curvature : ℚ
  steer_angle_feedforward : ℚ
deriving DecidableEq

/-- Mutable state of one `MPCController` instance: the two carried-forward
error scalars (header lines 200–203), the digital-filter and mean-filter
states (header lines 215–222), the cached model matrices (header lines
167–184) and the lifecycle phase of the spec's §4.6. -/
structure ControllerState where
  previous_lateral_error_ : ℚ
  previous_heading_error_ : ℚ
  digital_filter_ : ℚ
  lateral_error_filter_ : List ℚ
  matrix_a_ : Matrix (Fin 6) (Fin 6) ℚ
  matrix_ad_ : Matrix (Fin 6) (Fin 6) ℚ
  matrix_b_ : Matrix (Fin 6) (Fin 1) ℚ
  matrix_bd_ : Matrix (Fin 6) (Fin 1) ℚ
  matrix_k_ : Matrix (Fin 1) (Fin 6) ℚ
  phase : Phase

/-- The ControllerMemory of the spec's data model: the cross-cycle part of
the controller state (the two carried-forward scalars plus filter states). -/
structure ControllerMemory where
  previous_lateral_error_ : ℚ
  previous_heading_error_ : ℚ
  digital_filter_ : ℚ
  lateral_error_filter_ : List ℚ
deriving DecidableEq

/-- Projection of the full controller state onto its ControllerMemory. -/
def memoryOf (s : ControllerState) : ControllerMemory :=
  { previous_lateral_error_ := s.previous_lateral_error_
    previous_heading_error_ := s.previous_heading_error_
    digital_filter_ := s.digital_filter_
    lateral_error_filter_ := s.lateral_error_filter_ }

/-- A freshly constructed controller: the scalar members carry the default
member initializers of the header (`previous_heading_error_ = 0.0`,
`previous_lateral_error_ = 0.0`, filter states empty), the matrices are
default-constructed (zero), and no `Init` has happened yet. -/
def initialState : ControllerState :=
  { previous_lateral_error_ := 0
    previous_heading_error_ := 0
    digital_filter_ := 0
    lateral_error_filter_ := []
    matrix_a_ := 0
    matrix_ad_ := 0
    matrix_b_ := 0
    matrix_bd_ := 0
    matrix_k_ := 0
    phase := Phase.uninitialized }

/-- Modelled from the spec: `Reset` (header line 90, body absent) returns
the controller to Ready with ControllerMemory cleared — the carried-forward
scalars become zero and the digital-filter and mean-filter states are
cleared. -/
def resetState (s : ControllerState) : ControllerState :=
  { s with
    previous_lateral_error_ := 0
    previous_heading_error_ := 0
    digital_filter_ := 0
    lateral_error_filter_ := []
    phase := Phase.ready }

/-- Clamp a scalar to the interval `[lo, hi]`. -/
def clampQ (x lo hi : ℚ) : ℚ := min (max x lo) hi

/-- Modelled from the spec: the scalar IIR low-pass Digital Filter (header
line 215, implementation external to this repository), in first-order form:
the new output is a convex combination of the previous output (the filter
state) and the input, with coefficient `alpha`. -/
def digitalFilterStep (alpha state input : ℚ) : ℚ :=
  alpha * state + (1 - alpha) * input

/-- Modelled from the spec: the sliding-window Mean Filter (header line
222, implementation external to this repository).  Pushes the new sample,
keeps the most recent `w` samples and returns the new window together with
their average. -/
def meanFilterUpdate (w : ℕ) (window : List ℚ) (x : ℚ) : List ℚ × ℚ :=
  let win := (x :: window).take w
  (win, win.sum / (win.length : ℚ))

/-- Squared Euclidean distance from `(x, y)` to a trajectory point. -/
def distSq (x y : ℚ) (p : TrajectoryPoint) : ℚ :=
  (x - p.x) ^ 2 + (y - p.y) ^ 2

/-- Modelled from the spec: the Trajectory Reference Matcher (the
`trajectory_analyzer_` member, header line 134, implementation external to
this repository) returns the reference point nearest to the vehicle. -/
def nearestPoint (x y : ℚ) : List TrajectoryPoint → Option TrajectoryPoint
  | [] => none
  | p :: ps =>
    some (ps.foldl (fun best q => if distSq x y q < distSq x y best then q else best) p)

/-- Signed lateral offset of `(x, y)` from a reference point, positive to
the left of the reference tangent direction. -/
def rawLateralError (x y : ℚ) (m : TrajectoryPoint) : ℚ :=
  (y - m.y) * m.tx - (x - m.x) * m.ty

/-- Modelled from the spec: `ComputeLateralErrors` (header lines 118–121,
body absent).  Computes the error state at the matched reference point; the
lateral error is smoothed through the Mean Filter before differencing, and
the error rates are `(current − previous) / control period` using the two
carried-forward scalars.  The angle wrap into `(−π, π]` is not
representable over `ℚ` and is omitted.  The function is `const` in the
header: it only reads the controller state. -/
def computeLateralErrors (p : MPCParams) (s : ControllerState)
    (x y theta linear_v angular_v : ℚ) (traj : List TrajectoryPoint) :
    SimpleMPCDebug :=
  match nearestPoint x y traj with
  | none =>
    { lateral_error := 0, lateral_error_rate := 0, heading_error := 0
      heading_error_rate := 0, station_error := 0, speed_error := 0
      ref_curvature := 0, steer_angle_feedforward := 0 }
  | some m =>
    let smoothed := (meanFilterUpdate p.mean_filter_window s.lateral_error_filter_
      (rawLateralError x y m)).2
    let heading_error := theta - m.theta
    { lateral_error := smoothed
      lateral_error_rate := (smoothed - s.previous_lateral_error_) / p.ts
      heading_error := heading_error
      heading_error_rate := (heading_error - s.previous_heading_error_) / p.ts
      station_error := (x - m.x) * m.tx + (y - m.y) * m.ty
      speed_error := m.v - linear_v
      ref_curvature := m.kappa
      steer_angle_feedforward := 0 }

/-- Modelled from the spec: `ComputeFeedForward` (header line 112, body
absent).  Steady-state steering for a constant-curvature arc: a term linear
in curvature plus an understeer-gradient term growing with speed squared,
with the speed-squared contribution (the implied lateral acceleration
`v² · κ`) clamped to the configured maximum `max_lat_acc_`. -/
def computeFeedForward (p : MPCParams) (v ref_curvature : ℚ) : ℚ :=
  let kv := p.lr * p.mass / (2 * p.cf * p.wheelbase)
    - p.lf * p.mass / (2 * p.cr * p.wheelbase)
  p.wheelbase * ref_curvature
    + kv * clampQ (v ^ 2 * ref_curvature) (-p.max_lat_acc) p.max_lat_acc

/-- Modelled from the spec: `GetLateralError` (header lines 114–116, body
absent).  Returns the lateral offset to the matched trajectory point and
the matched point itself.  `const` in the header. -/
def getLateralError (x y : ℚ) (traj : List TrajectoryPoint) :
    ℚ × Option TrajectoryPoint :=
  match nearestPoint x y traj with
  | none => (0, none)
  | some m => (rawLateralError x y m, some m)

/-- Executable determinant over `ℚ` by Laplace expansion along the first
row (Mathlib's `Matrix.det` does not evaluate by kernel reduction).  A zero
pivot short-circuits its cofactor. -/
def detQ : {n : ℕ} → Matrix (Fin n) (Fin n) ℚ → ℚ
  | 0, _ => 1
  | _ + 1, A =>
    ∑ j, (if A 0 j = 0 then 0
      else (-1) ^ (j : ℕ) * A 0 j * detQ (A.submatrix Fin.succ j.succAbove))

/-- Executable matrix inverse over `ℚ` via the cofactor formula
`(det A)⁻¹ · adjugate A`.  For a singular matrix this returns the zero
matrix (since `(0 : ℚ)⁻¹ = 0`), mirroring `Matrix.inv`. -/
def qInv : {n : ℕ} → Matrix (Fin n) (Fin n) ℚ → Matrix (Fin n) (Fin n) ℚ
  | 0, _ => 1
  | _ + 1, A =>
    Matrix.of fun i j =>
      (detQ A)⁻¹ * ((-1) ^ ((j : ℕ) + (i : ℕ)) * detQ (A.submatrix j.succAbove i.succAbove))

/-- The discrete-time state matrix of the bilinear (Tustin) transform,
`Ad = (I − h/2·A)⁻¹ (I + h/2·A)`. -/
def discretizeAd {n : ℕ} (h : ℚ) (A : Matrix (Fin n) (Fin n) ℚ) :
    Matrix (Fin n) (Fin n) ℚ :=
  qInv (1 - (h / 2) • A) * (1 + (h / 2) • A)

/-- The discrete-time control matrix of the bilinear (Tustin) transform,
`Bd = (I − h/2·A)⁻¹ · B · h`. -/
def discretizeBd {n : ℕ} (h : ℚ) (A : Matrix (Fin n) (Fin n) ℚ)
    (B : Matrix (Fin n) (Fin 1) ℚ) : Matrix (Fin n) (Fin 1) ℚ :=
  h • (qInv (1 - (h / 2) • A) * B)

/-- Modelled from the spec: the discretization step of `UpdateMatrix`
(header line 108, body absent).  Applies the bilinear (Tustin) transform
with control period `h`, failing with a NumericalError when the matrix to
invert, `I − h/2·A`, is singular (over exact rationals, the spec's
"singular to within a small tolerance" is exact singularity). -/
def bilinearDiscretize {n : ℕ} (h : ℚ) (A : Matrix (Fin n) (Fin n) ℚ)
    (B : Matrix (Fin n) (Fin 1) ℚ) :
    Except Status (Matrix (Fin n) (Fin n) ℚ × Matrix (Fin n) (Fin 1) ℚ) :=
  if detQ (1 - (h / 2) • A) = 0 then Except.error Status.numericalError
  else Except.ok (discretizeAd h A, discretizeBd h A B)

/-- Modelled from the spec: the continuous bicycle-model state matrix
`A(v)` built by `UpdateMatrix` (header lines 108, 167–168 and 186, bodies
absent); the classic lateral-dynamics matrix of Rajamani's "Vehicle
dynamics and control" (cited by the header), extended with the station- and
speed-error states of the header's six-state vector.  The caller clamps
`v` to a positive floor before the divisions. -/
def matrixA (p : MPCParams) (v : ℚ) : Matrix (Fin 6) (Fin 6) ℚ :=
  Matrix.of
    ![![0, 1, 0, 0, 0, 0],
      ![0, -(p.cf + p.cr) / (p.mass * v), (p.cf + p.cr) / p.mass,
        (p.lr * p.cr - p.lf * p.cf) / (p.mass * v), 0, 0],
      ![0, 0, 0, 1, 0, 0],
      ![0, (p.lr * p.cr - p.lf * p.cf) / (p.iz * v),
        (p.lf * p.cf - p.lr * p.cr) / p.iz,
        -(p.lf ^ 2 * p.cf + p.lr ^ 2 * p.cr) / (p.iz * v), 0, 0],
      ![0, 0, 0, 0, 0, 1],
      ![0, 0, 0, 0, 0, 0]]

/-- Modelled from the spec: the continuous control matrix `B` of the
bicycle model (header lines 173 and 110, bodies absent). -/
def matrixB (p : MPCParams) : Matrix (Fin 6) (Fin 1) ℚ :=
  Matrix.of ![![0], ![p.cf / p.mass], ![0], ![p.lf * p.cf / p.iz], ![0], ![0]]

/-- Max-norm of a matrix: the largest absolute value of an entry. -/
def maxNorm {n m : ℕ} (A : Matrix (Fin n) (Fin m) ℚ) : ℚ :=
  ((List.finRange n).map fun i =>
    (((List.finRange m).map fun j => |A i j|).foldr max 0)).foldr max 0

/-- One fixed-point step of the discrete algebraic Riccati equation,
`P ↦ Q + Adᵗ P Ad − Adᵗ P Bd (R + Bdᵗ P Bd)⁻¹ Bdᵗ P Ad`. -/
def riccatiStep {n m : ℕ} (Ad : Matrix (Fin n) (Fin n) ℚ)
    (Bd : Matrix (Fin n) (Fin m) ℚ) (Q : Matrix (Fin n) (Fin n) ℚ)
    (R : Matrix (Fin m) (Fin m) ℚ) (P : Matrix (Fin n) (Fin n) ℚ) :
    Matrix (Fin n) (Fin n) ℚ :=
  Q + Ad.transpose * P * Ad
    - Ad.transpose * P * Bd * qInv (R + Bd.transpose * P * Bd)
      * (Bd.transpose * P * Ad)

/-- Modelled from the spec: the fuelled Riccati fixed-point loop of the LQR
Gain Solver (header lines 210–213; solver body external to this
repository).  Performs at most `fuel` steps from `P`; stops early, with a
`true` convergence flag, as soon as the max-norm of the difference of
consecutive iterates falls below `eps`; when the fuel (the configured
`lqr_max_iteration_`) runs out the last iterate is returned with a `false`
flag — a warning, not a failure. -/
def solveDare {n m : ℕ} (Ad : Matrix (Fin n) (Fin n) ℚ)
    (Bd : Matrix (Fin n) (Fin m) ℚ) (Q : Matrix (Fin n) (Fin n) ℚ)
    (R : Matrix (Fin m) (Fin m) ℚ) (eps : ℚ) :
    ℕ → Matrix (Fin n) (Fin n) ℚ → Matrix (Fin n) (Fin n) ℚ × Bool
  | 0, P => (P, false)
  | fuel + 1, P =>
    let Pn := riccatiStep Ad Bd Q R P
    if maxNorm (Pn - P) < eps then (Pn, true)
    else solveDare Ad Bd Q R eps fuel Pn

/-- Modelled from the spec: the LQR Gain Solver — a pure function of
`(Ad, Bd, Q, R, tolerance, max iterations)`.  Iterates the Riccati
fixed-point map starting from `P₀ = Q` and returns the feedback gain
`K = (R + Bdᵗ P Bd)⁻¹ Bdᵗ P Ad` computed from the final iterate, together
with the convergence flag. -/
def solveLQRProblem {n m : ℕ} (Ad : Matrix (Fin n) (Fin n) ℚ)
    (Bd : Matrix (Fin n) (Fin m) ℚ) (Q : Matrix (Fin n) (Fin n) ℚ)
    (R : Matrix (Fin m) (Fin m) ℚ) (eps : ℚ) (maxIter : ℕ) :
    Matrix (Fin m) (Fin n) ℚ × Bool :=
  let PC := solveDare Ad Bd Q R eps maxIter Q
  (qInv (R + Bd.transpose * PC.1 * Bd) * (Bd.transpose * PC.1 * Ad), PC.2)

/-- The gain solver as invoked on a controller instance: the gain is
written into the cached `matrix_k_` member, and nothing of the incoming
instance state influences the result. -/
def solveLQRStateful (s : ControllerState) (Ad : Matrix (Fin 6) (Fin 6) ℚ)
    (Bd : Matrix (Fin 6) (Fin 1) ℚ) (Q : Matrix (Fin 6) (Fin 6) ℚ)
    (R : Matrix (Fin 1) (Fin 1) ℚ) (eps : ℚ) (maxIter : ℕ) :
    Matrix (Fin 1) (Fin 6) ℚ × ControllerState :=
  let K := (solveLQRProblem Ad Bd Q R eps maxIter).1
  (K, { s with matrix_k_ := K })

/-- The actuator range of the steering command, derived from the maximum
single-direction steering angle and the steering transmission ratio
(header lines 153–156). -/
def steerLimit (p : MPCParams) : ℚ :=
  p.steer_single_direction_max_degree * p.steer_transmission_ratio

/-- Whether `ComputeControlCommand` may run in the given lifecycle phase
(spec §4.6: only Ready and Running). -/
def runnablePhase : Phase → Bool
  | Phase.ready => true
  | Phase.running => true
  | _ => false

/-- Everything one compute cycle produces: the status, the (possibly
untouched) output command, the updated instance state and the diagnostic
frame. -/
structure ComputeResult where
  status : Status
  cmd : ControlCommand
  state : ControllerState
  debug : SimpleMPCDebug

/-- The all-zero diagnostic frame. -/
def zeroDebug : SimpleMPCDebug :=
  { lateral_error := 0, lateral_error_rate := 0, heading_error := 0
    heading_error_rate := 0, station_error := 0, speed_error := 0
    ref_curvature := 0, steer_angle_feedforward := 0 }

/-- Modelled from the spec: `ComputeControlCommand` (header lines 81–84,
body absent), following the Composer contract of spec §4.5 — lifecycle
guard, fail-fast on a degenerate trajectory, model rebuild and bilinear
discretization, LQR gain solve, error state and feedforward, raw steering
`−K·state + feedforward`, clamp to the actuator range, digital low-pass
filter, command and debug-frame emission.  On every failure path the
output command is left untouched. -/
def computeControlCommand (p : MPCParams) (s : ControllerState)
    (meas : Measurement) (traj : List TrajectoryPoint) (cmd : ControlCommand) :
    ComputeResult :=
  if runnablePhase s.phase = false then
    { status := Status.lifecycleError, cmd := cmd, state := s, debug := zeroDebug }
  else if traj.length < 2 then
    { status := Status.inputError, cmd := cmd, state := s, debug := zeroDebug }
  else
    match nearestPoint meas.x meas.y traj with
    | none =>
      { status := Status.inputError, cmd := cmd, state := s, debug := zeroDebug }
    | some m =>
      let v := max meas.linear_v p.minimum_speed_protection
      let A := matrixA p v
      let B := matrixB p
      match bilinearDiscretize p.ts A B with
      | Except.error e =>
        { status := e, cmd := cmd, state := s, debug := zeroDebug }
      | Except.ok AdBd =>
        let K := (solveLQRProblem AdBd.1 AdBd.2 (Matrix.diagonal p.q_diag)
          (Matrix.of ![![p.r_weight]]) p.lqr_eps p.lqr_max_iteration).1
        let dbg0 := computeLateralErrors p s meas.x meas.y meas.theta
          meas.linear_v meas.angular_v traj
        let ff := computeFeedForward p v dbg0.ref_curvature
        let dbg := { dbg0 with steer_angle_feedforward := ff }
        let xvec : Fin 6 → ℚ :=
          ![dbg.lateral_error, dbg.lateral_error_rate, dbg.heading_error,
            dbg.heading_error_rate, dbg.station_error, dbg.speed_error]
        let feedback := -(∑ i, K 0 i * xvec i)
        let clamped := clampQ (feedback + ff) (-steerLimit p) (steerLimit p)
        let final := digitalFilterStep p.filter_coeff s.digital_filter_ clamped
        { status := Status.ok
          cmd := { steering_target := final }
          state :=
            { previous_lateral_error_ := dbg.lateral_error
              previous_heading_error_ := dbg.heading_error
              digital_filter_ := final
              lateral_error_filter_ :=
                (meanFilterUpdate p.mean_filter_window s.lateral_error_filter_
                  (rawLateralError meas.x meas.y m)).1
              matrix_a_ := A
              matrix_ad_ := AdBd.1
              matrix_b_ := B
              matrix_bd_ := AdBd.2
              matrix_k_ := K
              phase := Phase.running }
          debug := dbg }

/-- An external lifecycle event: an `Init` that succeeds or fails
configuration load, a `Compute` cycle, a `Reset`, or a `Stop`. -/
inductive LifecycleOp where
  | initOk
  | initFail
  | compute
  | reset
  | stop

/-- Modelled from the spec: the lifecycle transition relation of §4.6.
`Init` moves Uninitialized to Ready only on success; `Compute` runs in
Ready/Running; `Reset` returns a running controller to Ready; `Stop` is
terminal. -/
def stepPhase : Phase → LifecycleOp → Phase
  | Phase.stopped, _ => Phase.stopped
  | Phase.uninitialized, LifecycleOp.initOk => Phase.ready
  | Phase.uninitialized, _ => Phase.uninitialized
  | Phase.ready, LifecycleOp.compute => Phase.running
  | Phase.ready, LifecycleOp.stop => Phase.stopped
  | Phase.ready, _ => Phase.ready
  | Phase.running, LifecycleOp.stop => Phase.stopped
  | Phase.running, LifecycleOp.reset => Phase.ready
  | Phase.running, _ => Phase.running

/-- The lifecycle phase reached from `ph` after a sequence of events. -/
def runOps (ph : Phase) (ops : List LifecycleOp) : Phase :=
  ops.foldl stepPhase ph

/-- `ComputeFeedForward` as a member call on a controller instance: the
header declares it `const` (line 112), so the instance state threads
through unchanged; the embedding reconstructs the state field by field, as
the `const` qualifier guarantees no field can have been written. -/
def computeFeedForwardM (p : MPCParams) (s : ControllerState) (v k : ℚ) :
    ℚ × ControllerState :=
  (computeFeedForward p v k,
   { previous_lateral_error_ := s.previous_lateral_error_
     previous_heading_error_ := s.previous_heading_error_
     digital_filter_ := s.digital_filter_
     lateral_error_filter_ := s.lateral_error_filter_
     matrix_a_ := s.matrix_a_
     matrix_ad_ := s.matrix_ad_
     matrix_b_ := s.matrix_b_
     matrix_bd_ := s.matrix_bd_
     matrix_k_ := s.matrix_k_
     phase := s.phase })

/-- `ComputeLateralErrors` as a member call on a controller instance:
`const` in the header (lines 118–121), so the instance state threads
through unchanged. -/
def computeLateralErrorsM (p : MPCParams) (s : ControllerState)
    (x y theta linear_v angular_v : ℚ) (traj : List TrajectoryPoint) :
    SimpleMPCDebug × ControllerState :=
  (computeLateralErrors p s x y theta linear_v angular_v traj,
   { previous_lateral_error_ := s.previous_lateral_error_
     previous_heading_error_ := s.previous_heading_error_
     digital_filter_ := s.digital_filter_
     lateral_error_filter_ := s.lateral_error_filter_
     matrix_a_ := s.matrix_a_
     matrix_ad_ := s.matrix_ad_
     matrix_b_ := s.matrix_b_
     matrix_bd_ := s.matrix_bd_
     matrix_k_ := s.matrix_k_
     phase := s.phase })

/-- `GetLateralError` as a member call on a controller instance: `const`
in the header (lines 114–116), so the instance state threads through
unchanged. -/
def getLateralErrorM (s : ControllerState) (x y : ℚ)
    (traj : List TrajectoryPoint) :
    (ℚ × Option TrajectoryPoint) × ControllerState :=
  (getLateralError x y traj,
   { previous_lateral_error_ := s.previous_lateral_error_
     previous_heading_error_ := s.previous_heading_error_
     digital_filter_ := s.digital_filter_
     lateral_error_filter_ := s.lateral_error_filter_
     matrix_a_ := s.matrix_a_
     matrix_ad_ := s.matrix_ad_
     matrix_b_ := s.matrix_b_
     matrix_bd_ := s.matrix_bd_
     matrix_k_ := s.matrix_k_
     phase := s.phase })

/-- A concrete, physically plausible parameter set used to instantiate the
universally quantified theorems below on explicit inputs. -/
def sampleParams : MPCParams :=
  { ts := 1
    cf := 1
    cr := 1
    wheelbase := 1
    mass := 1
    lf := 1
    lr := 1
    iz := 1
    steer_transmission_ratio := 16
    steer_single_direction_max_degree := 470
    max_lat_acc := 5
    lqr_eps := 1 / 100
    lqr_max_iteration := 3
    q_diag := fun _ => 1
    r_weight := 1
    filter_coeff := 1 / 2
    mean_filter_window := 2
    minimum_speed_protection := 1 / 10 }

/-- A parameter set with zero cornering stiffness, for which the bicycle
state matrix has purely kinematic entries; used to evaluate a full compute
cycle on explicit inputs. -/
def zeroStiffnessParams : MPCParams :=
  { ts := 1
    cf := 0
    cr := 0
    wheelbase := 1
    mass := 1
    lf := 1
    lr := 1
    iz := 1
    steer_transmission_ratio := 16
    steer_single_direction_max_degree := 470
    max_lat_acc := 5
    lqr_eps := 1 / 100
    lqr_max_iteration := 1
    q_diag := fun _ => 1
    r_weight := 1
    filter_coeff := 1 / 2
    mean_filter_window := 1
    minimum_speed_protection := 1 }

/-- A two-point straight-line trajectory along the x axis. -/
def sampleTrajectory : List TrajectoryPoint :=
  [{ x := 0, y := 0, theta := 0, tx := 1, ty := 0, kappa := 0, s := 0, v := 1 },
   { x := 1, y := 0, theta := 0, tx := 1, ty := 0, kappa := 0, s := 1, v := 1 }]

/-- A vehicle one unit to the left of the sample trajectory. -/
def sampleMeasurement : Measurement :=
  { x := 0, y := 1, theta := 0, linear_v := 1, angular_v := 0 }

/-- A neutral previously emitted command. -/
def sampleCommand : ControlCommand :=
  { steering_target := 0 }

/-- A controller state carrying an arbitrary nonzero pre-reset history. -/
def historyState : ControllerState :=
  { initialState with
    previous_lateral_error_ := 5
    previous_heading_error_ := -3
    digital_filter_ := 7
    lateral_error_filter_ := [2, 4]
    phase := Phase.running }

/-- The matrix `I − ts/2 · A(v)` arising for `zeroStiffnessParams` at unit
speed: upper triangular with unit diagonal. -/
def kinematicM : Matrix (Fin 6) (Fin 6) ℚ :=
  Matrix.of
    ![![1, -1/2, 0, 0, 0, 0],
      ![0, 1, 0, 0, 0, 0],
      ![0, 0, 1, -1/2, 0, 0],
      ![0, 0, 0, 1, 0, 0],
      ![0, 0, 0, 0, 1, -1/2],
      ![0, 0, 0, 0, 0, 1]]

/-- The executable Laplace-expansion determinant agrees with Mathlib's
determinant. -/
theorem detQ_eq_det : ∀ {n : ℕ} (A : Matrix (Fin n) (Fin n) ℚ), detQ A = A.det
  | 0, A => by
    rw [detQ, Matrix.det_isEmpty]
  | n + 1, A => by
    rw [detQ, Matrix.det_succ_row_zero]
    refine Finset.sum_congr rfl fun j _ => ?_
    rw [detQ_eq_det]
    split
    · next h => rw [h]; ring
    · rfl

/-- The executable cofactor inverse agrees with Mathlib's nonsingular
inverse whenever the determinant is nonzero. -/
theorem qInv_eq_inv : ∀ {n : ℕ} (A : Matrix (Fin n) (Fin n) ℚ),
    A.det ≠ 0 → qInv A = A⁻¹
  | 0, A, _ => by
    ext i _
    exact i.elim0
  | n + 1, A, _ => by
    ext i j
    rw [qInv, Matrix.of_apply, Matrix.inv_def, Matrix.smul_apply,
      Matrix.adjugate_fin_succ_eq_det_submatrix, Ring.inverse_eq_inv,
      detQ_eq_det, detQ_eq_det, smul_eq_mul]

/-- C3: for every control period h > 0 and continuous model matrices A, B,
the discretization step computes Ad = (I − h/2·A)⁻¹(I + h/2·A) and
Bd = (I − h/2·A)⁻¹·B·h (the bilinear/Tustin transform), and fails with a
NumericalError when (I − h/2·A) is singular rather than producing a
result. -/
theorem discretization_is_bilinear_tustin {n : ℕ} (h : ℚ)
    (A : Matrix (Fin n) (Fin n) ℚ) (B : Matrix (Fin n) (Fin 1) ℚ)
    (hpos : 0 < h) :
    (((1 : Matrix (Fin n) (Fin n) ℚ) - (h / 2) • A).det ≠ 0 →
      bilinearDiscretize h A B =
        Except.ok
          ((1 - (h / 2) • A)⁻¹ * (1 + (h / 2) • A),
            h • ((1 - (h / 2) • A)⁻¹ * B))) ∧
    (((1 : Matrix (Fin n) (Fin n) ℚ) - (h / 2) • A).det = 0 →
      bilinearDiscretize h A B = Except.error Status.numericalError) := by
  constructor
  · intro hd
    rw [bilinearDiscretize, detQ_eq_det, if_neg hd]
    rw [discretizeAd, discretizeBd, qInv_eq_inv _ hd]
  · intro hd
    rw [bilinearDiscretize, detQ_eq_det, if_pos hd]

/-- A sample 2×2 nilpotent continuous state matrix. -/
def sampleA2 : Matrix (Fin 2) (Fin 2) ℚ := Matrix.of ![![0, 1], ![0, 0]]

/-- A sample 2×1 control matrix. -/
def sampleB2 : Matrix (Fin 2) (Fin 1) ℚ := Matrix.of ![![0], ![1]]

/-- Witness for C3 at h = 1 and the sample 2×2 system. -/
theorem discretization_is_bilinear_tustin_witness :
    (0 : ℚ) < 1 ∧
    ((((1 : Matrix (Fin 2) (Fin 2) ℚ) - ((1 : ℚ) / 2) • sampleA2).det ≠ 0 →
      bilinearDiscretize 1 sampleA2 sampleB2 =
        Except.ok
          ((1 - ((1 : ℚ) / 2) • sampleA2)⁻¹ * (1 + ((1 : ℚ) / 2) • sampleA2),
            (1 : ℚ) • ((1 - ((1 : ℚ) / 2) • sampleA2)⁻¹ * sampleB2))) ∧
    (((1 : Matrix (Fin 2) (Fin 2) ℚ) - ((1 : ℚ) / 2) • sampleA2).det = 0 →
      bilinearDiscretize 1 sampleA2 sampleB2 = Except.error Status.numericalError)) :=
  ⟨by norm_num, discretization_is_bilinear_tustin 1 sampleA2 sampleB2 (by norm_num)⟩

/-- C5: the LQR gain solver is deterministic and history-free — for any
two invocations with identical (Ad, Bd, Q, R, tolerance, max iterations),
whatever the instance state accumulated between them, the resulting gain
matrix is identical. -/
theorem lqr_gain_history_free (s t : ControllerState)
    (Ad : Matrix (Fin 6) (Fin 6) ℚ) (Bd : Matrix (Fin 6) (Fin 1) ℚ)
    (Q : Matrix (Fin 6) (Fin 6) ℚ) (R : Matrix (Fin 1) (Fin 1) ℚ)
    (eps : ℚ) (maxIter : ℕ) :
    (solveLQRStateful s Ad Bd Q R eps maxIter).1 =
      (solveLQRStateful t Ad Bd Q R eps maxIter).1 := rfl

/-- C7: for every speed and parameter set (with a nonnegative configured
lateral-acceleration bound), a reference curvature of exactly 0 yields a
feedforward steering term of exactly 0. -/
theorem zero_curvature_zero_feedforward (p : MPCParams) (v : ℚ)
    (hacc : 0 ≤ p.max_lat_acc) : computeFeedForward p v 0 = 0 := by
  rw [computeFeedForward, clampQ]
  rw [mul_zero, mul_zero, max_eq_left (neg_nonpos.mpr hacc), min_eq_left hacc]
  ring

/-- Witness for C7 at the sample parameter set and speed 3. -/
theorem zero_curvature_zero_feedforward_witness :
    0 ≤ sampleParams.max_lat_acc ∧ computeFeedForward sampleParams 3 0 = 0 :=
  ⟨by norm_num [sampleParams],
   zero_curvature_zero_feedforward sampleParams 3 (by norm_num [sampleParams])⟩

/-- C10: `ComputeFeedForward`, `ComputeLateralErrors` and `GetLateralError`
are `const` member functions — invoked on any controller instance, they
return the instance state entirely unchanged, writing only to their result
values. -/
theorem const_members_preserve_state (p : MPCParams) (s : ControllerState)
    (v k x y theta linear_v angular_v : ℚ) (traj : List TrajectoryPoint)
    (px py : ℚ) :
    (computeFeedForwardM p s v k).2 = s ∧
    (computeLateralErrorsM p s x y theta linear_v angular_v traj).2 = s ∧
    (getLateralErrorM s px py traj).2 = s :=
  ⟨rfl, rfl, rfl⟩

/-- Clamping to a symmetric interval `[−L, L]` with `0 ≤ L` bounds the
magnitude by `L`. -/
theorem abs_clampQ_le (x L : ℚ) (hL : 0 ≤ L) : |clampQ x (-L) L| ≤ L := by
  rw [clampQ, abs_le]
  exact ⟨le_min (le_max_right x (-L)) (by linarith), min_le_right _ _⟩

/-- A convex combination of two values of magnitude at most `L` has
magnitude at most `L`: the first-order low-pass filter cannot leave the
actuator range. -/
theorem abs_digitalFilterStep_le (a st x L : ℚ) (h0 : 0 ≤ a) (h1 : a ≤ 1)
    (hst : |st| ≤ L) (hx : |x| ≤ L) : |digitalFilterStep a st x| ≤ L := by
  rw [digitalFilterStep]
  calc |a * st + (1 - a) * x| ≤ |a * st| + |(1 - a) * x| := abs_add _ _
    _ = a * |st| + (1 - a) * |x| := by
        rw [abs_mul, abs_mul, abs_of_nonneg h0,
          abs_of_nonneg (show (0 : ℚ) ≤ 1 - a by linarith)]
    _ ≤ a * L + (1 - a) * L :=
        add_le_add (mul_le_mul_of_nonneg_left hst h0)
          (mul_le_mul_of_nonneg_left hx (by linarith))
    _ = L := by ring

/-- C1: for every input, the magnitude of the steering command emitted by
`ComputeControlCommand` never exceeds the actuator range derived from the
maximum single-direction steering angle and the steering transmission
ratio (assuming a well-formed low-pass coefficient and filter state and
previous command within range — in particular for every input on which the
call succeeds). -/
theorem steering_command_within_actuator_range (p : MPCParams)
    (s : ControllerState) (meas : Measurement) (traj : List TrajectoryPoint)
    (cmd : ControlCommand) (h0 : 0 ≤ p.filter_coeff)
    (h1 : p.filter_coeff ≤ 1) (hL : 0 ≤ steerLimit p)
    (hst : |s.digital_filter_| ≤ steerLimit p)
    (hcmd : |cmd.steering_target| ≤ steerLimit p) :
    |(computeControlCommand p s meas traj cmd).cmd.steering_target| ≤
      steerLimit p := by
  rw [computeControlCommand]
  split
  · exact hcmd
  split
  · exact hcmd
  split
  · exact hcmd
  dsimp only
  split
  · exact hcmd
  exact abs_digitalFilterStep_le _ _ _ _ h0 h1 hst (abs_clampQ_le _ _ hL)

/-- Witness for C1 on a fresh controller, the sample trajectory and the
neutral previous command. -/
theorem steering_command_within_actuator_range_witness :
    0 ≤ sampleParams.filter_coeff ∧ sampleParams.filter_coeff ≤ 1 ∧
    0 ≤ steerLimit sampleParams ∧
    |initialState.digital_filter_| ≤ steerLimit sampleParams ∧
    |sampleCommand.steering_target| ≤ steerLimit sampleParams ∧
    |(computeControlCommand sampleParams initialState sampleMeasurement
        sampleTrajectory sampleCommand).cmd.steering_target| ≤
      steerLimit sampleParams :=
  ⟨by norm_num [sampleParams], by norm_num [sampleParams],
   by norm_num [sampleParams, steerLimit],
   by norm_num [initialState, sampleParams, steerLimit],
   by norm_num [sampleCommand, sampleParams, steerLimit],
   steering_command_within_actuator_range sampleParams initialState
     sampleMeasurement sampleTrajectory sampleCommand
     (by norm_num [sampleParams]) (by norm_num [sampleParams])
     (by norm_num [sampleParams, steerLimit])
     (by norm_num [initialState, sampleParams, steerLimit])
     (by norm_num [sampleCommand, sampleParams, steerLimit])⟩

/-- C2: invoked in a runnable phase on a trajectory with fewer than two
points, `ComputeControlCommand` returns InputError and leaves the output
command argument unmodified. -/
theorem short_trajectory_input_error (p : MPCParams) (s : ControllerState)
    (meas : Measurement) (traj : List TrajectoryPoint) (cmd : ControlCommand)
    (hp : s.phase = Phase.ready ∨ s.phase = Phase.running)
    (hlen : traj.length < 2) :
    (computeControlCommand p s meas traj cmd).status = Status.inputError ∧
    (computeControlCommand p s meas traj cmd).cmd = cmd := by
  have hr : runnablePhase s.phase = true := by
    rcases hp with h | h <;> rw [h] <;> rfl
  rw [computeControlCommand, hr]
  simp [hlen]

/-- Witness for C2: an empty trajectory on a just-reset controller. -/
theorem short_trajectory_input_error_witness :
    ((resetState initialState).phase = Phase.ready ∨
      (resetState initialState).phase = Phase.running) ∧
    ([] : List TrajectoryPoint).length < 2 ∧
    ((computeControlCommand sampleParams (resetState initialState)
        sampleMeasurement [] sampleCommand).status = Status.inputError ∧
      (computeControlCommand sampleParams (resetState initialState)
        sampleMeasurement [] sampleCommand).cmd = sampleCommand) :=
  ⟨Or.inl rfl, by norm_num,
   short_trajectory_input_error sampleParams (resetState initialState)
     sampleMeasurement [] sampleCommand (Or.inl rfl) (by norm_num)⟩

/-- C8: in every reachable lifecycle sequence, `ComputeControlCommand`
succeeds only in the Ready or Running phases; invoked while Uninitialized
or Stopped it returns a LifecycleError, and Stopped is terminal under
every further event sequence. -/
theorem lifecycle_compute_guard (ops : List LifecycleOp) (p : MPCParams)
    (s : ControllerState) (meas : Measurement) (traj : List TrajectoryPoint)
    (cmd : ControlCommand) :
    runOps Phase.stopped ops = Phase.stopped ∧
    ((computeControlCommand p s meas traj cmd).status = Status.ok →
      s.phase = Phase.ready ∨ s.phase = Phase.running) ∧
    (s.phase = Phase.uninitialized ∨ s.phase = Phase.stopped →
      (computeControlCommand p s meas traj cmd).status = Status.lifecycleError) := by
  refine ⟨?_, ?_, ?_⟩
  · induction ops with
    | nil => rfl
    | cons o os ih => simpa [runOps, stepPhase] using ih
  · intro hok
    cases hph : s.phase
    · rw [computeControlCommand] at hok
      rw [hph] at hok
      simp [runnablePhase] at hok
    · exact Or.inl rfl
    · exact Or.inr rfl
    · rw [computeControlCommand] at hok
      rw [hph] at hok
      simp [runnablePhase] at hok
  · intro hbad
    have hr : runnablePhase s.phase = false := by
      rcases hbad with h | h <;> rw [h] <;> rfl
    rw [computeControlCommand, hr]
    rfl

/-- Witness for C8: a stopped controller stays stopped and refuses to
compute. -/
theorem lifecycle_compute_guard_witness :
    runOps Phase.stopped [LifecycleOp.reset, LifecycleOp.initOk] = Phase.stopped ∧
    (computeControlCommand sampleParams
        { initialState with phase := Phase.stopped } sampleMeasurement
        sampleTrajectory sampleCommand).status = Status.lifecycleError :=
  ⟨(lifecycle_compute_guard [LifecycleOp.reset, LifecycleOp.initOk] sampleParams
      { initialState with phase := Phase.stopped } sampleMeasurement
      sampleTrajectory sampleCommand).1,
   (lifecycle_compute_guard [LifecycleOp.reset, LifecycleOp.initOk] sampleParams
      { initialState with phase := Phase.stopped } sampleMeasurement
      sampleTrajectory sampleCommand).2.2 (Or.inr rfl)⟩

/-- The fuelled Riccati loop, started anywhere, performs some `k ≤ fuel`
steps of the fixed-point map; it reports non-convergence exactly when it
exhausted the whole fuel, and convergence only when the max-norm of the
last consecutive difference fell below the tolerance. -/
theorem solveDare_iterate {n m : ℕ} (Ad : Matrix (Fin n) (Fin n) ℚ)
    (Bd : Matrix (Fin n) (Fin m) ℚ) (Q : Matrix (Fin n) (Fin n) ℚ)
    (R : Matrix (Fin m) (Fin m) ℚ) (eps : ℚ) :
    ∀ (N : ℕ) (P0 : Matrix (Fin n) (Fin n) ℚ),
      ∃ k, k ≤ N ∧
        (solveDare Ad Bd Q R eps N P0).1 = (riccatiStep Ad Bd Q R)^[k] P0 ∧
        ((solveDare Ad Bd Q R eps N P0).2 = false → k = N) ∧
        ((solveDare Ad Bd Q R eps N P0).2 = true →
          ∃ j, k = j + 1 ∧
            maxNorm ((riccatiStep Ad Bd Q R)^[j + 1] P0 -
              (riccatiStep Ad Bd Q R)^[j] P0) < eps)
  | 0, P0 =>
    ⟨0, le_refl 0, rfl, fun _ => rfl, fun htrue => by simp [solveDare] at htrue⟩
  | N + 1, P0 => by
    by_cases hc : maxNorm (riccatiStep Ad Bd Q R P0 - P0) < eps
    · refine ⟨1, by omega, ?_, ?_, fun _ => ⟨0, rfl, ?_⟩⟩
      · simp [solveDare, hc]
      · intro hfalse
        simp [solveDare, hc] at hfalse
      · simpa using hc
    · have hstep : solveDare Ad Bd Q R eps (N + 1) P0 =
          solveDare Ad Bd Q R eps N (riccatiStep Ad Bd Q R P0) := by
        simp [solveDare, hc]
      obtain ⟨k, hk, h1, h2, h3⟩ :=
        solveDare_iterate Ad Bd Q R eps N (riccatiStep Ad Bd Q R P0)
      refine ⟨k + 1, by omega, ?_, ?_, ?_⟩
      · rw [hstep, h1]
        exact (Function.iterate_succ_apply _ _ _).symm
      · intro hf
        rw [hstep] at hf
        have := h2 hf
        omega
      · intro ht
        rw [hstep] at ht
        obtain ⟨j, hj, hlt⟩ := h3 ht
        refine ⟨j + 1, by omega, ?_⟩
        rw [Function.iterate_succ_apply (riccatiStep Ad Bd Q R) (j + 1) P0,
          Function.iterate_succ_apply (riccatiStep Ad Bd Q R) j P0]
        exact hlt

/-- C4: the Riccati fixed-point iteration starts from P₀ = Q, applies
`Pₖ₊₁ = Q + AdᵗPₖAd − AdᵗPₖBd(R + BdᵗPₖBd)⁻¹BdᵗPₖAd`, and always
terminates within the configured iteration cap: it performs some
k ≤ max_iterations steps; it stops early (convergence flag true) only once
the max-norm of the difference of consecutive iterates fell below the
tolerance; and when the cap is hit without convergence the flag is the
only consequence — exactly max_iterations steps were performed and the
last iterate is still returned, so the cycle proceeds with a warning. -/
theorem riccati_iteration_bounded {n m : ℕ} (Ad : Matrix (Fin n) (Fin n) ℚ)
    (Bd : Matrix (Fin n) (Fin m) ℚ) (Q : Matrix (Fin n) (Fin n) ℚ)
    (R : Matrix (Fin m) (Fin m) ℚ) (eps : ℚ) (maxIter : ℕ) :
    ∃ k, k ≤ maxIter ∧
      (solveDare Ad Bd Q R eps maxIter Q).1 = (riccatiStep Ad Bd Q R)^[k] Q ∧
      ((solveDare Ad Bd Q R eps maxIter Q).2 = false → k = maxIter) ∧
      ((solveDare Ad Bd Q R eps maxIter Q).2 = true →
        ∃ j, k = j + 1 ∧
          maxNorm ((riccatiStep Ad Bd Q R)^[j + 1] Q -
            (riccatiStep Ad Bd Q R)^[j] Q) < eps) :=
  solveDare_iterate Ad Bd Q R eps maxIter Q

/-- The error calculator reads the controller state only through its
ControllerMemory: two instances agreeing on the carried-forward scalars
and the mean-filter window produce identical error frames. -/
theorem computeLateralErrors_memory_congr (p : MPCParams)
    (s t : ControllerState)
    (h1 : s.previous_lateral_error_ = t.previous_lateral_error_)
    (h2 : s.previous_heading_error_ = t.previous_heading_error_)
    (h3 : s.lateral_error_filter_ = t.lateral_error_filter_)
    (x y theta linear_v angular_v : ℚ) (traj : List TrajectoryPoint) :
    computeLateralErrors p s x y theta linear_v angular_v traj =
      computeLateralErrors p t x y theta linear_v angular_v traj := by
  simp only [computeLateralErrors, h1, h2, h3]

/-- The diagnostic frame of a compute cycle depends on the instance state
only through the lifecycle phase and the ControllerMemory read by the
error calculator. -/
theorem computeControlCommand_debug_memory_congr (p : MPCParams)
    (s t : ControllerState) (hph : s.phase = t.phase)
    (h1 : s.previous_lateral_error_ = t.previous_lateral_error_)
    (h2 : s.previous_heading_error_ = t.previous_heading_error_)
    (h3 : s.lateral_error_filter_ = t.lateral_error_filter_)
    (meas : Measurement) (traj : List TrajectoryPoint) (cmd : ControlCommand) :
    (computeControlCommand p s meas traj cmd).debug =
      (computeControlCommand p t meas traj cmd).debug := by
  have hce := computeLateralErrors_memory_congr p s t h1 h2 h3 meas.x meas.y
    meas.theta meas.linear_v meas.angular_v traj
  rw [computeControlCommand, computeControlCommand, hph]
  by_cases hr : runnablePhase t.phase = false
  · rw [if_pos hr, if_pos hr]
  · rw [if_neg hr, if_neg hr]
    by_cases hl : traj.length < 2
    · rw [if_pos hl, if_pos hl]
    · rw [if_neg hl, if_neg hl]
      cases hm : nearestPoint meas.x meas.y traj with
      | none => rfl
      | some m =>
        dsimp only
        cases hbd : bilinearDiscretize p.ts
            (matrixA p (max meas.linear_v p.minimum_speed_protection))
            (matrixB p) with
        | error e => rfl
        | ok AdBd =>
          dsimp only
          rw [hce]

/-- C9: a freshly constructed controller carries the header's default
member initializers — both carried-forward scalars are 0 — and its
ControllerMemory coincides with that of a just-reset controller, so the
first cycle's error rates are computed against a zero baseline exactly as
if a Reset had just occurred. -/
theorem fresh_controller_zero_baseline :
    initialState.previous_lateral_error_ = 0 ∧
    initialState.previous_heading_error_ = 0 ∧
    (∀ s : ControllerState, memoryOf initialState = memoryOf (resetState s)) ∧
    (∀ (p : MPCParams) (x y theta linear_v angular_v : ℚ)
        (traj : List TrajectoryPoint) (s : ControllerState),
      computeLateralErrors p initialState x y theta linear_v angular_v traj =
        computeLateralErrors p (resetState s) x y theta linear_v angular_v
          traj) :=
  ⟨rfl, rfl, fun _ => rfl, fun p x y theta lv av traj s =>
    computeLateralErrors_memory_congr p initialState (resetState s)
      rfl rfl rfl x y theta lv av traj⟩

/-- C6 (amended): after Reset the two carried-forward scalars are zero and
the digital-filter and mean-filter states are cleared; consequently the
first post-Reset cycle's diagnostic frame — its error-rate terms included
— is independent of the pre-Reset history, and the error rates are
computed against a zero baseline: they equal the current error divided by
the control period (zero exactly when the current error is zero), not
identically zero. -/
theorem post_reset_zero_baseline :
    (∀ s : ControllerState,
      (resetState s).previous_lateral_error_ = 0 ∧
      (resetState s).previous_heading_error_ = 0 ∧
      (resetState s).digital_filter_ = 0 ∧
      (resetState s).lateral_error_filter_ = []) ∧
    (∀ (p : MPCParams) (s1 s2 : ControllerState) (meas : Measurement)
        (traj : List TrajectoryPoint) (cmd : ControlCommand),
      (computeControlCommand p (resetState s1) meas traj cmd).debug =
        (computeControlCommand p (resetState s2) meas traj cmd).debug) ∧
    (∀ (p : MPCParams) (s : ControllerState) (x y theta linear_v angular_v : ℚ)
        (traj : List TrajectoryPoint),
      (computeLateralErrors p (resetState s) x y theta linear_v angular_v
          traj).lateral_error_rate =
        (computeLateralErrors p (resetState s) x y theta linear_v angular_v
          traj).lateral_error / p.ts ∧
      (computeLateralErrors p (resetState s) x y theta linear_v angular_v
          traj).heading_error_rate =
        (computeLateralErrors p (resetState s) x y theta linear_v angular_v
          traj).heading_error / p.ts) := by
  refine ⟨fun s => ⟨rfl, rfl, rfl, rfl⟩, ?_, ?_⟩
  · intro p s1 s2 meas traj cmd
    exact computeControlCommand_debug_memory_congr p (resetState s1)
      (resetState s2) rfl rfl rfl rfl meas traj cmd
  · intro p s x y theta linear_v angular_v traj
    rw [computeLateralErrors]
    cases hnp : nearestPoint x y traj with
    | none => exact ⟨by simp, by simp⟩
    | some m => exact ⟨by simp [resetState], by simp [resetState]⟩

/-- The kinematic `I − ts/2 · A(v)` matrix is nonsingular: it is upper
triangular with unit diagonal. -/
theorem kinematicM_det : kinematicM.det = 1 := by
  rw [Matrix.det_of_upperTriangular]
  · rw [Fin.prod_univ_six, show kinematicM 0 0 = 1 from rfl,
      show kinematicM 1 1 = 1 from rfl, show kinematicM 2 2 = 1 from rfl,
      show kinematicM 3 3 = 1 from rfl, show kinematicM 4 4 = 1 from rfl,
      show kinematicM 5 5 = 1 from rfl]
    norm_num
  · intro i j hij
    fin_cases i <;> fin_cases j <;>
      first
        | exact absurd hij (by decide)
        | norm_num [kinematicM]

/-- For `zeroStiffnessParams` at the sample measurement's (clamped) speed,
the matrix inverted by the discretization step is `kinematicM`. -/
theorem zeroStiffness_bilinear_matrix :
    (1 : Matrix (Fin 6) (Fin 6) ℚ) - (zeroStiffnessParams.ts / 2) •
        matrixA zeroStiffnessParams
          (max sampleMeasurement.linear_v
            zeroStiffnessParams.minimum_speed_protection) = kinematicM := by
  have hv : max sampleMeasurement.linear_v
      zeroStiffnessParams.minimum_speed_protection = 1 := by
    norm_num [sampleMeasurement, zeroStiffnessParams]
  rw [hv]
  ext i j
  fin_cases i <;> fin_cases j <;>
    norm_num [matrixA, zeroStiffnessParams, kinematicM, Matrix.one_apply,
      Fin.ext_iff]

/-- The discretization step succeeds on the counterexample inputs. -/
theorem zeroStiffness_discretize_ok :
    bilinearDiscretize zeroStiffnessParams.ts
        (matrixA zeroStiffnessParams
          (max sampleMeasurement.linear_v
            zeroStiffnessParams.minimum_speed_protection))
        (matrixB zeroStiffnessParams) =
      Except.ok
        (discretizeAd zeroStiffnessParams.ts
          (matrixA zeroStiffnessParams
            (max sampleMeasurement.linear_v
              zeroStiffnessParams.minimum_speed_protection)),
         discretizeBd zeroStiffnessParams.ts
          (matrixA zeroStiffnessParams
            (max sampleMeasurement.linear_v
              zeroStiffnessParams.minimum_speed_protection))
          (matrixB zeroStiffnessParams)) := by
  rw [bilinearDiscretize, detQ_eq_det, zeroStiffness_bilinear_matrix,
    kinematicM_det, if_neg (by norm_num : ¬(1 : ℚ) = 0)]

/-- The sample measurement matches the first sample trajectory point. -/
theorem sample_nearest :
    nearestPoint sampleMeasurement.x sampleMeasurement.y sampleTrajectory =
      some { x := 0, y := 0, theta := 0, tx := 1, ty := 0, kappa := 0,
             s := 0, v := 1 } := by
  norm_num [nearestPoint, sampleTrajectory, sampleMeasurement, distSq]

/-- C6 (counterexample): on a concrete input whose current lateral error is
nonzero, the first post-Reset compute cycle reports a nonzero lateral
error rate — the rate terms after Reset are not identically zero, they are
the current error over the control period. -/
theorem post_reset_rate_not_zero :
    (computeControlCommand zeroStiffnessParams (resetState historyState)
        sampleMeasurement sampleTrajectory
        sampleCommand).debug.lateral_error_rate ≠ 0 := by
  have hce : (computeLateralErrors zeroStiffnessParams
      (resetState historyState) sampleMeasurement.x sampleMeasurement.y
      sampleMeasurement.theta sampleMeasurement.linear_v
      sampleMeasurement.angular_v sampleTrajectory).lateral_error_rate = 1 := by
    rw [computeLateralErrors, sample_nearest]
    norm_num [meanFilterUpdate, rawLateralError, resetState, historyState,
      zeroStiffnessParams, sampleMeasurement]
  rw [computeControlCommand,
    if_neg (by decide :
      ¬(runnablePhase (resetState historyState).phase = false)),
    if_neg (by decide : ¬(sampleTrajectory.length < 2)),
    sample_nearest]
  dsimp only
  rw [zeroStiffness_discretize_ok]
  dsimp only
  rw [hce]
  norm_num

end ApolloMPC
